import Mathlib

/-!
Verification development for the GroMo AI microlearning coach.

This file embeds the weakness-prediction and content-selection core of the
repository (src/backend/recommender.py, src/backend/ml_model.py) as Lean
definitions and proves the specified properties about them.

Modelling conventions:
* Python dictionaries with a fixed key set become structures; a key that may
  be absent becomes an `Option` field.
* Fallible Python code (raising exceptions) is modelled with `Except`/`Option`;
  a `try/except` that absorbs every exception into `None` is modelled by
  mapping every `Except.error` to `none`.
* `random.choice lst` is modelled by `randomChoice k lst`, which picks the
  element at index `k % lst.length` for an arbitrary oracle index `k`, and is
  `none` on the empty list (where `random.choice` raises `IndexError`).
* The fitted scikit-learn classifier is opaque to every claim, so a pipeline
  is an abstract function from a feature row to an `Except`-wrapped list of
  predicted class indices (`pipeline.predict` may raise, and returns an array
  of predictions).
-/

namespace GroMo

/-- A content entry of the catalog: the `{video, tip, next_step}` dictionaries
of `DUMMY_CONTENT_DATA` in src/backend/recommender.py.  Each literal entry of
the catalog has exactly these three string fields. -/
structure ContentEntry where
  video : String
  tip : String
  next_step : String
deriving DecidableEq

/-- The `Recommendation` TypedDict of src/backend/recommender.py. -/
structure Recommendation where
  video : String
  tip : String
  next_step : String
deriving DecidableEq

/-- The literal `DUMMY_CONTENT_DATA` table of src/backend/recommender.py,
as an association list in the source's key order. -/
def DUMMY_CONTENT_DATA : List (String × List ContentEntry) :=
  [ ("loan_closing_technique",
      [⟨"https://www.youtube.com/watch?v=loan_closing_video",
        "Master the art of closing loan deals with these proven techniques.",
        "Practice these closing questions with a colleague."⟩]),
    ("insurance_objection_handling",
      [⟨"https://www.youtube.com/watch?v=insurance_objection_video",
        "Learn to effectively handle common objections when selling insurance.",
        "Role-play an objection scenario for an insurance product."⟩]),
    ("credit_card_benefits_explaining",
      [⟨"https://www.youtube.com/watch?v=cc_benefits_video",
        "Clearly articulate the unique benefits of our credit card offers.",
        "List 3 key benefits for each credit card you offer."⟩]),
    ("loan_application_process",
      [⟨"https://www.youtube.com/watch?v=loan_application_video",
        "Guide clients smoothly through the loan application process.",
        "Create a checklist for the loan application steps."⟩]),
    ("insurance_policy_comparison",
      [⟨"https://www.youtube.com/watch?v=insurance_compare_video",
        "Help clients compare insurance policies to find the best fit.",
        "Compare two similar insurance policies and highlight differences."⟩]),
    ("insurance_product_knowledge",
      [⟨"https://www.youtube.com/watch?v=insurance_knowledge_video",
        "Deepen your understanding of our insurance product details.",
        "Study the product brochure for a new insurance policy."⟩]),
    ("credit_card_sales_pitch",
      [⟨"https://www.youtube.com/watch?v=cc_pitch_video",
        "Craft a compelling sales pitch for credit cards.",
        "Record yourself delivering a credit card sales pitch."⟩]),
    ("loan_eligibility_criteria",
      [⟨"https://www.youtube.com/watch?v=loan_eligibility_video",
        "Understand and explain loan eligibility criteria accurately.",
        "Review the eligibility criteria for three different loan products."⟩]),
    ("insurance_claim_process",
      [⟨"https://www.youtube.com/watch?v=insurance_claim_video",
        "Assist clients efficiently through the insurance claim process.",
        "Outline the steps for a typical insurance claim."⟩]),
    ("loan_negotiation_skills",
      [⟨"https://www.youtube.com/watch?v=loan_negotiation_video",
        "Improve your negotiation skills for loan terms and conditions.",
        "Identify three negotiation points for a loan scenario."⟩]),
    ("default",
      [⟨"https://www.youtube.com/watch?v=dummy_generic_video",
        "Always listen to your customer\x27s needs first.",
        "Practice active listening in your next conversation."⟩]) ]

/-- Python `str.lower()` (the repository's data is ASCII, where this is
`Char.toLower` on each character).  Defined over the character list so that
it evaluates inside the kernel. -/
def pyLower (s : String) : String :=
  String.mk (s.data.map Char.toLower)

/-- Python `DUMMY_CONTENT_DATA.get(key)`: `none` when the key is absent. -/
def catalogGet (key : String) : Option (List ContentEntry) :=
  (DUMMY_CONTENT_DATA.find? (fun p => p.1 == key)).map (fun p => p.2)

/-- Python `key in DUMMY_CONTENT_DATA`. -/
def catalogContains (key : String) : Bool :=
  (catalogGet key).isSome

/-- Python `DUMMY_CONTENT_DATA["default"]` (the key is present in the literal,
so the `.getD []` branch is dead; this is proved below). -/
def defaultGroup : List ContentEntry :=
  (catalogGet "default").getD []

/-- Python `DUMMY_CONTENT_DATA.get(content_source_key, DUMMY_CONTENT_DATA["default"])`
from `recommend_content`. -/
def resolveContent (key : String) : List ContentEntry :=
  (catalogGet key).getD defaultGroup

/-- Model of `random.choice lst`: the oracle index `k` stands for the random
draw; the result is `none` exactly when the list is empty, where the Python
call raises `IndexError`. -/
def randomChoice (k : Nat) (l : List α) : Option α :=
  l[k % l.length]?

/-! ## Performance lookup (src/backend/recommender.py, `get_gp_performance`) -/

/-- One row of the `gps_performance.csv` dataset as consumed by the
recommender.  Per the dataset schema the row carries `gp_id` and
`product_type` string cells; `attempts`/`successes` hold the result of the
`int(...)` coercion performed in `recommend_content` — `none` models a cell
that is missing or whose coercion raises (`ValueError`), both of which the
source absorbs into the no-data fallback. -/
structure PerfRow where
  gp_id : String
  product_type : String
  attempts : Option Int
  successes : Option Int
deriving DecidableEq

/-- The loaded `gp_performance_df`. -/
structure PerfDataset where
  rows : List PerfRow
deriving DecidableEq

/-- The row filter of `get_gp_performance`: `gp_id` compared exactly,
`product_type` compared lowercased on both sides. -/
def perfMatches (gp pt : String) (r : PerfRow) : Bool :=
  r.gp_id == gp && pyLower r.product_type == pyLower pt

/-- `get_gp_performance` of src/backend/recommender.py: filter the dataset,
return the last matching row (`.iloc[-1]`), else `None`. -/
def get_gp_performance (d : PerfDataset) (gp pt : String) : Option PerfRow :=
  let filtered := d.rows.filter (perfMatches gp pt)
  if filtered.isEmpty then none else filtered.getLast?

/-- The attempts/successes extraction of `recommend_content` (lines 159-175):
the `"attempts" in gp_data and "successes" in gp_data` guard together with the
`int(...)` coercions whose `ValueError` is caught and treated as no data. -/
def lookupPerformance (d : PerfDataset) (gp pt : String) : Option (Int × Int) :=
  match get_gp_performance d gp pt with
  | none => none
  | some r =>
    match r.attempts, r.successes with
    | some a, some s => some (a, s)
    | _, _ => none

/-! ## Inference (src/backend/ml_model.py, `predict_weakness`) -/

/-- The single-row feature frame built by `predict_weakness`:
`pd.DataFrame({"product_type": [product_type], "attempts": [attempts],
"successes": [successes]})`.  Note the source does not change the casing of
`product_type` here. -/
structure FeatureRow where
  product_type : String
  attempts : Int
  successes : Int
deriving DecidableEq

/-- A fitted pipeline, opaque to every claim: `pipeline.predict` may raise
(modelled by `Except.error`) or return an array of class indices. -/
abbrev Pipeline := FeatureRow → Except Unit (List Nat)

/-- The value stored under `target_encoder_classes` in the artifact dict:
either an indexable list of labels, or some other value (the
`isinstance(target_encoder_classes, (list, pd.Series))` check of
`predict_weakness` fails on the latter). -/
inductive ClassesVal where
  | indexable (labels : List String)
  | notIndexable

/-- The artifact dictionary `{'pipeline': ..., 'target_encoder_classes': ...}`.
A `none` field models the key being absent from the dict (accessing it raises
`KeyError`). -/
structure PyArtifacts where
  pipeline : Option Pipeline
  target_encoder_classes : Option ClassesVal

/-- Python exceptions distinguished by the `except` clauses of
`predict_weakness`. -/
inductive PyErr where
  | keyError
  | exc

/-- The input frame `predict_weakness` constructs (product_type passed through
exactly as supplied by the caller). -/
def buildInputRow (pt : String) (a s : Int) : FeatureRow :=
  ⟨pt, a, s⟩

/-- The body of `predict_weakness` before its `except` clauses: each Python
statement that can raise is reflected as an `Except.error`.  `KeyError` arises
from the two dict accesses; any exception from `pipeline.predict` and the
`IndexError` of an out-of-range `target_encoder_classes[...]` access fall under
the generic `except Exception`. -/
def predict_weaknessE (art : PyArtifacts) (pt : String) (a s : Int) :
    Except PyErr (Option String) :=
  match art.pipeline with
  | none => Except.error PyErr.keyError
  | some pl =>
    match art.target_encoder_classes with
    | none => Except.error PyErr.keyError
    | some cls =>
      match pl (buildInputRow pt a s) with
      | Except.error _ => Except.error PyErr.exc
      | Except.ok pred =>
        match pred with
        | [] => Except.ok none
        | i :: _ =>
          match cls with
          | ClassesVal.indexable labels =>
            match labels[i]? with
            | some lbl => Except.ok (some lbl)
            | none => Except.error PyErr.exc
          | ClassesVal.notIndexable => Except.ok none

/-- `predict_weakness` of src/backend/ml_model.py: the body wrapped in the
`except KeyError` / `except Exception` handlers, both of which return `None`. -/
def predict_weakness (art : PyArtifacts) (pt : String) (a s : Int) :
    Option String :=
  match predict_weaknessE art pt a s with
  | Except.error _ => none
  | Except.ok o => o

/-! ## Orchestrator (src/backend/recommender.py, `recommend_content`) -/

/-- Python truthiness of `loaded_ml_model_artifacts`: `None` and the empty
dict are falsy; a dict with at least one key is truthy. -/
def pyTruthy (art : Option PyArtifacts) : Bool :=
  match art with
  | none => false
  | some a => a.pipeline.isSome || a.target_encoder_classes.isSome

/-- The `predicted_topic` computed by `recommend_content`: gated on
`loaded_ml_model_artifacts and gp_performance_df is not None`, then the
performance lookup, the int coercions, and the `predict_weakness` call with
`product_type.lower()`.  The `except` clauses around the call absorb every
failure into `None` (and `predict_weakness` already returns `None` on its own
internal failures). -/
def predictedTopic (art : Option PyArtifacts) (df : Option PerfDataset)
    (gp pt : String) : Option String :=
  match art, df with
  | some a, some d =>
    if pyTruthy (some a) then
      match lookupPerformance d gp pt with
      | some (att, suc) => predict_weakness a (pyLower pt) att suc
      | none => none
    else none
  | _, _ => none

/-- The `content_source_key` selection of `recommend_content`:
`if predicted_topic and predicted_topic in DUMMY_CONTENT_DATA` (Python
truthiness makes the empty-string label falsy), else `product_type.lower()`. -/
def contentSourceKey (topic : Option String) (pt : String) : String :=
  match topic with
  | some t => if t != "" && catalogContains t then t else pyLower pt
  | none => pyLower pt

/-- `recommend_content` of src/backend/recommender.py, parametric in the
process state (`loaded_ml_model_artifacts`, `gp_performance_df`) and in the
random-choice oracle index `k`.  The result is `none` only if `random.choice`
would raise on an empty content list. -/
def recommend_content (art : Option PyArtifacts) (df : Option PerfDataset)
    (gp pt : String) (k : Nat) : Option Recommendation :=
  let topic := predictedTopic art df gp pt
  let key := contentSourceKey topic pt
  let content_list := resolveContent key
  match randomChoice k content_list with
  | some e => some ⟨e.video, e.tip, e.next_step⟩
  | none => none

/-- Spec-side definition for the refinement claim, following §8 of the spec:
"If no model artifact is loaded, `recommend` is equivalent to resolving
directly by lowercased `product_type`, with `\x22default\x22` used when that
key is absent from the catalog."  Written from the spec's words, to be
compared with `recommend_content`. -/
def specDirectResolve (pt : String) (k : Nat) : Option Recommendation :=
  let group :=
    match catalogGet (pyLower pt) with
    | some l => l
    | none => defaultGroup
  match randomChoice k group with
  | some e => some ⟨e.video, e.tip, e.next_step⟩
  | none => none

/-! ## Training (src/backend/ml_model.py, `train_model`) -/

/-- One row of the training CSV, restricted to the four columns `train_model`
uses.  Per the spec's data model, `attempts`/`successes` are integer cells;
a `none` field models a missing value (`NaN`), which `dropna` removes. -/
structure TrainRow where
  product_type : Option String
  attempts : Option Int
  successes : Option Int
  last_weak_topic : Option String
deriving DecidableEq

/-- The dataframe returned by `pd.read_csv`: the column names it carries plus
its rows. -/
structure TrainDataset where
  columns : List String
  rows : List TrainRow
deriving DecidableEq

/-- `required_cols = CATEGORICAL_FEATURES + NUMERICAL_FEATURES + [TARGET_COLUMN]`
of src/backend/ml_model.py. -/
def required_cols : List String :=
  ["product_type", "attempts", "successes", "last_weak_topic"]

/-- A row that survives `df.dropna(subset=required_cols)`. -/
def rowComplete (r : TrainRow) : Bool :=
  r.product_type.isSome && r.attempts.isSome &&
    r.successes.isSome && r.last_weak_topic.isSome

/-- `df.dropna(subset=required_cols)`. -/
def dropnaRows (rows : List TrainRow) : List TrainRow :=
  rows.filter rowComplete

/-- The target column of the cleaned dataframe, in dataset order: the label
sequence the target encoder observes. -/
def observedLabels (rows : List TrainRow) : List String :=
  (dropnaRows rows).filterMap (fun r => r.last_weak_topic)

/-- Lexicographic comparison of character lists by code point — the string
order `np.unique` sorts by. -/
def charListLt : List Char → List Char → Bool
  | _, [] => false
  | [], _ :: _ => true
  | a :: as, b :: bs =>
    if a.toNat < b.toNat then true
    else if b.toNat < a.toNat then false
    else charListLt as bs

/-- Code-point lexicographic strict order on strings. -/
def strLt (a b : String) : Bool :=
  charListLt a.data b.data

/-- Insertion into a strictly sorted duplicate-free list, keeping it so. -/
def insertSortedUniq (x : String) : List String → List String
  | [] => [x]
  | y :: ys =>
    if x = y then y :: ys
    else if strLt x y then x :: y :: ys
    else y :: insertSortedUniq x ys

/-- The sorted list of unique values of `l`: the semantics of `np.unique`,
which is what `sklearn.preprocessing.LabelEncoder.fit` stores in `classes_`
(scikit-learn documents `classes_` as holding the sorted unique labels). -/
def sortedUnique (l : List String) : List String :=
  l.foldl (fun acc x => insertSortedUniq x acc) []

/-- `LabelEncoder.fit(y).classes_`. -/
def labelEncoderClasses (ys : List String) : List String :=
  sortedUnique ys

/-- `LabelEncoder.transform`: each label is mapped to its index in the sorted
unique class list. -/
def labelEncoderTransform (classes : List String) (ys : List String) : List Nat :=
  ys.map (fun y => classes.indexOf y)

/-- The artifact dict `{'pipeline': model_pipeline,
'target_encoder_classes': class_labels}` that `train_model` dumps.  Both keys
are always present in a freshly trained artifact. -/
structure SavedArtifact where
  pipeline : Pipeline
  target_encoder_classes : List String

/-- `train_model` of src/backend/ml_model.py, parametric in `fit`, which
abstracts the `train_test_split` followed by `model_pipeline.fit` on the
training partition — no claim depends on the fitted coefficients, only on the
error behaviour and on the label encoding, both of which happen before the
split.  The `Option TrainDataset` input is the outcome of `pd.read_csv`
(`none` = the read raised).  A `none` result models every `return None` error
path (the spec's `DataError`). -/
def train_model (fit : List (FeatureRow × Nat) → Pipeline)
    (readResult : Option TrainDataset) : Option SavedArtifact :=
  match readResult with
  | none => none
  | some df =>
    if df.rows.isEmpty then none
    else if !(required_cols.all (fun c => df.columns.contains c)) then none
    else
      let clean := dropnaRows df.rows
      if clean.length < 10 then none
      else
        let labels := clean.filterMap (fun r => r.last_weak_topic)
        let class_labels := labelEncoderClasses labels
        let y := labelEncoderTransform class_labels labels
        let X := clean.map (fun r =>
          FeatureRow.mk (r.product_type.getD "") (r.attempts.getD 0)
            (r.successes.getD 0))
        if X.isEmpty || y.isEmpty then none
        else some ⟨fit (X.zip y), class_labels⟩

/-- Formalisation of the phrase "in the order the labels were first observed":
deduplication keeping the first occurrence of each label.  Used only to state
the order an alternative reading of the encoding would produce. -/
def firstObserved (l : List String) : List String :=
  l.foldl (fun acc x => if acc.contains x then acc else acc ++ [x]) []

/-! ## Model store (src/backend/ml_model.py, `load_model_artifacts` and the
`joblib.dump` in `train_model`) -/

/-- The filesystem as seen by the model store: each path maps to the artifact
blob stored there, if any.  The serialized blob is modelled by its value. -/
abbrev Store := String → Option PyArtifacts

/-- The `joblib.dump(model_artifacts, model_save_path)` write. -/
def saveModel (st : Store) (path : String) (art : PyArtifacts) : Store :=
  fun q => if q = path then some art else st q

/-- `load_model_artifacts` of src/backend/ml_model.py: `None` when the path
does not exist, and `None` when either expected key is absent from the
deserialized dict. -/
def load_model_artifacts (st : Store) (path : String) : Option PyArtifacts :=
  match st path with
  | none => none
  | some art =>
    if art.pipeline.isNone || art.target_encoder_classes.isNone then none
    else some art

/-! ## Catalog well-formedness helpers -/

/-- An entry is well-formed when all three of its fields are non-empty. -/
def entryWF (e : ContentEntry) : Bool :=
  e.video != "" && e.tip != "" && e.next_step != ""

/-- A group is well-formed when it is non-empty and all entries are. -/
def groupWF (l : List ContentEntry) : Bool :=
  !l.isEmpty && l.all entryWF

theorem catalog_groups_wf : ∀ p ∈ DUMMY_CONTENT_DATA, groupWF p.2 = true := by
  decide

theorem defaultGroup_wf : groupWF defaultGroup = true := by
  decide

theorem catalogGet_wf {key : String} {l : List ContentEntry}
    (h : catalogGet key = some l) : groupWF l = true := by
  unfold catalogGet at h
  cases hf : DUMMY_CONTENT_DATA.find? (fun p => p.1 == key) with
  | none => simp [hf] at h
  | some p =>
    have hm : p ∈ DUMMY_CONTENT_DATA := List.mem_of_find?_eq_some hf
    simp [hf] at h
    exact h ▸ catalog_groups_wf p hm

theorem resolveContent_wf (key : String) : groupWF (resolveContent key) = true := by
  unfold resolveContent
  cases h : catalogGet key with
  | none => simpa using defaultGroup_wf
  | some l => simpa using catalogGet_wf h

theorem randomChoice_wf {l : List ContentEntry} (h : groupWF l = true) (k : Nat) :
    ∃ e, randomChoice k l = some e ∧ entryWF e = true := by
  unfold groupWF at h
  rw [Bool.and_eq_true] at h
  obtain ⟨hne, hall⟩ := h
  have hne' : l ≠ [] := by
    cases l with
    | nil => simp at hne
    | cons a t => exact List.cons_ne_nil a t
  have hlt : k % l.length < l.length :=
    Nat.mod_lt _ (List.length_pos.mpr hne')
  refine ⟨l[k % l.length], ?_, ?_⟩
  · unfold randomChoice
    exact List.getElem?_eq_getElem hlt
  · exact List.all_eq_true.mp hall _ (List.getElem_mem hlt)

/-! ## Claims about the orchestrator and the catalog -/

/-- Claim C1: for every `gp_id` and `product_type` (both non-empty strings),
`recommend_content` returns a `Recommendation` whose three fields are all
non-empty strings, and it never raises for any degraded condition (any model
artifact state, any dataset state, lookup miss, failed prediction, unknown
key): every such path yields some valid `Recommendation`. -/
theorem recommend_content_total (art : Option PyArtifacts) (df : Option PerfDataset)
    (gp pt : String) (k : Nat) (_hgp : gp ≠ "") (_hpt : pt ≠ "") :
    ∃ r : Recommendation, recommend_content art df gp pt k = some r ∧
      r.video ≠ "" ∧ r.tip ≠ "" ∧ r.next_step ≠ "" := by
  obtain ⟨e, he, hwf⟩ :=
    randomChoice_wf
      (resolveContent_wf (contentSourceKey (predictedTopic art df gp pt) pt)) k
  simp only [entryWF, Bool.and_eq_true, bne_iff_ne] at hwf
  refine ⟨⟨e.video, e.tip, e.next_step⟩, ?_, hwf.1.1, hwf.1.2, hwf.2⟩
  simp only [recommend_content]
  rw [he]

/-- Witness for C1 at a concrete input. -/
theorem recommend_content_total_w :
    ∃ r : Recommendation, recommend_content none none "GP001" "loan" 0 = some r ∧
      r.video ≠ "" ∧ r.tip ≠ "" ∧ r.next_step ≠ "" :=
  recommend_content_total none none "GP001" "loan" 0 (by decide) (by decide)

/-- Claim C10 (implicit invariant): every group of the static content catalog
is a non-empty list whose entries all have non-empty `video`, `tip` and
`next_step` fields (each entry has exactly these three fields by the shape of
`ContentEntry`); consequently, for every resolved key the random selection in
`recommend_content` is performed on a non-empty list and returns a complete
entry. -/
theorem catalog_invariant :
    (∀ p ∈ DUMMY_CONTENT_DATA, p.2 ≠ [] ∧
        ∀ e ∈ p.2, e.video ≠ "" ∧ e.tip ≠ "" ∧ e.next_step ≠ "") ∧
    (∀ key k, ∃ e, randomChoice k (resolveContent key) = some e ∧
        e.video ≠ "" ∧ e.tip ≠ "" ∧ e.next_step ≠ "") := by
  constructor
  · decide
  · intro key k
    obtain ⟨e, he, hwf⟩ := randomChoice_wf (resolveContent_wf key) k
    simp only [entryWF, Bool.and_eq_true, bne_iff_ne] at hwf
    exact ⟨e, he, hwf.1.1, hwf.1.2, hwf.2⟩

/-- Witness for C10 at a concrete key and draw. -/
theorem catalog_invariant_w :
    ∃ e, randomChoice 0 (resolveContent "insurance_claim_process") = some e ∧
      e.video ≠ "" ∧ e.tip ≠ "" ∧ e.next_step ≠ "" :=
  catalog_invariant.2 "insurance_claim_process" 0

/-- Claim C7 (refinement): whenever no model artifact is loaded,
`recommend_content` is equivalent to resolving the lowercased `product_type`
directly against the content catalog, with the `"default"` group used when
that key is absent — for every `gp_id`, `product_type` and random draw the
two computations agree, so they select from the same content group. -/
theorem recommend_content_no_model (art : Option PyArtifacts)
    (df : Option PerfDataset) (gp pt : String) (k : Nat) (h : art = none) :
    recommend_content art df gp pt k = specDirectResolve pt k := by
  subst h
  have htopic : predictedTopic none df gp pt = none := by
    cases df <;> rfl
  cases hc : catalogGet (pyLower pt) with
  | none =>
    simp [recommend_content, specDirectResolve, htopic, contentSourceKey,
      resolveContent, hc]
  | some l =>
    simp [recommend_content, specDirectResolve, htopic, contentSourceKey,
      resolveContent, hc]

/-- Witness for C7 at a concrete input (unknown product type). -/
theorem recommend_content_no_model_w :
    recommend_content none none "GP001" "telescope" 0 =
      specDirectResolve "telescope" 0 :=
  recommend_content_no_model none none "GP001" "telescope" 0 rfl

/-- Claim C2: the content-resolution key chosen by `recommend_content` is the
predicted topic exactly when the inference call returned a label that is a key
of the content catalog; in every other case (no record found, no prediction,
or predicted label not a catalog key) the key is `product_type` lowercased;
and the final catalog lookup of the chosen key falls back to the `"default"`
group when the key is absent from the catalog. -/
theorem content_key_resolution (art : Option PyArtifacts)
    (df : Option PerfDataset) (gp pt : String) :
    (∀ lbl, predictedTopic art df gp pt = some lbl → catalogContains lbl = true →
        contentSourceKey (predictedTopic art df gp pt) pt = lbl) ∧
    (∀ lbl, predictedTopic art df gp pt = some lbl → catalogContains lbl = false →
        contentSourceKey (predictedTopic art df gp pt) pt = pyLower pt) ∧
    (predictedTopic art df gp pt = none →
        contentSourceKey (predictedTopic art df gp pt) pt = pyLower pt) ∧
    (∀ key, catalogGet key = none → resolveContent key = defaultGroup) ∧
    (∀ key l, catalogGet key = some l → resolveContent key = l) ∧
    (∀ k, recommend_content art df gp pt k =
        (randomChoice k
          (resolveContent (contentSourceKey (predictedTopic art df gp pt) pt))).map
          (fun e => ⟨e.video, e.tip, e.next_step⟩)) := by
  refine ⟨?_, ?_, ?_, ?_, ?_, ?_⟩
  · intro lbl h hc
    rcases eq_or_ne lbl "" with h0 | h0
    · subst h0
      exact absurd hc (by decide)
    · rw [h]
      simp [contentSourceKey, hc, bne_iff_ne.mpr h0]
  · intro lbl h hc
    rw [h]
    simp [contentSourceKey, hc]
  · intro h
    rw [h]
    rfl
  · intro key hk
    simp [resolveContent, hk]
  · intro key l hk
    simp [resolveContent, hk]
  · intro k
    simp only [recommend_content]
    cases h : randomChoice k
        (resolveContent (contentSourceKey (predictedTopic art df gp pt) pt)) with
    | none => rfl
    | some e => rfl

/-- Witness for C2 at a concrete input on the no-prediction branch. -/
theorem content_key_resolution_w :
    contentSourceKey (predictedTopic none none "GP001" "Loan") "Loan" =
      pyLower "Loan" :=
  (content_key_resolution none none "GP001" "Loan").2.2.1 rfl

/-! ## Claims about the inference service -/

/-- Claim C3: for every artifact value (including malformed ones — e.g. a
dict missing the `target_encoder_classes` component, or whose predicted class
index is out of range of the label list) and all inputs, `predict_weakness`
returns either a string label or `None`, and every exception raised inside
its body is absorbed into `None` rather than propagated. -/
theorem predict_weakness_total (art : PyArtifacts) (pt : String) (a s : Int) :
    (predict_weakness art pt a s = none ∨
      ∃ lbl, predict_weakness art pt a s = some lbl) ∧
    (∀ e, predict_weaknessE art pt a s = Except.error e →
      predict_weakness art pt a s = none) := by
  constructor
  · cases h : predict_weakness art pt a s with
    | none => exact Or.inl rfl
    | some lbl => exact Or.inr ⟨lbl, rfl⟩
  · intro e he
    unfold predict_weakness
    rw [he]

/-- Witness for C3: a malformed artifact whose `target_encoder_classes` key
is absent makes the body raise `KeyError`, and the call yields `None`. -/
theorem predict_weakness_total_w :
    predict_weakness ⟨some (fun _ => Except.ok [0]), none⟩ "loan" 10 2 = none :=
  (predict_weakness_total ⟨some (fun _ => Except.ok [0]), none⟩ "loan" 10 2).2
    PyErr.keyError rfl

/-- A pipeline whose prediction depends on the casing of `product_type`,
used to exhibit that `predict_weakness` does not normalize its input. -/
def caseSensitivePipeline : Pipeline :=
  fun row => if row.product_type = "loan" then Except.ok [0] else Except.ok [1]

/-- An artifact built from `caseSensitivePipeline` and two distinct labels. -/
def caseSensitiveArtifact : PyArtifacts :=
  ⟨some caseSensitivePipeline,
    some (ClassesVal.indexable ["lower_case_label", "other_case_label"])⟩

/-- Counterexample to claim C8 as stated: `predict_weakness` builds its
feature row with `product_type` exactly as supplied — it performs no lowercase
normalization — so a pipeline that distinguishes casing yields different
predictions for `"LOAN"` and `"loan"`, which would be impossible if the row
were lowercase-normalized inside `predict_weakness`. -/
theorem predict_weakness_no_normalization_cex :
    buildInputRow "LOAN" 10 2 = ⟨"LOAN", 10, 2⟩ ∧
    predict_weakness caseSensitiveArtifact "LOAN" 10 2 ≠
      predict_weakness caseSensitiveArtifact "loan" 10 2 := by
  constructor
  · rfl
  · decide

/-- Claim C8 as amended: `predict_weakness` builds its single-row feature
vector with `product_type` exactly as the caller supplied it (the lowercase
normalization is performed by the caller, `recommend_content`, which passes
`product_type.lower()`), routes the row through the artifact's pipeline to
obtain a single class index — the head of the returned prediction array —
and maps that index through the artifact's label list to produce the returned
topic label (`none` when the index is out of range). -/
theorem predict_weakness_spec (pl : Pipeline) (cls : List String)
    (pt : String) (a s : Int) (i : Nat) (rest : List Nat)
    (h : pl (buildInputRow pt a s) = Except.ok (i :: rest)) :
    buildInputRow pt a s = ⟨pt, a, s⟩ ∧
    predict_weakness ⟨some pl, some (ClassesVal.indexable cls)⟩ pt a s =
      cls[i]? := by
  constructor
  · rfl
  · unfold predict_weakness predict_weaknessE
    simp only [h]
    cases hc : cls[i]? with
    | none => rfl
    | some lbl => rfl

/-- Witness for C8's amended theorem at a concrete pipeline and label list. -/
theorem predict_weakness_spec_w :
    predict_weakness
        ⟨some (fun _ => Except.ok [0]),
          some (ClassesVal.indexable ["loan_closing_technique"])⟩
        "loan" 10 2 =
      (["loan_closing_technique"] : List String)[0]? :=
  (predict_weakness_spec (fun _ => Except.ok [0]) ["loan_closing_technique"]
    "loan" 10 2 0 [] rfl).2

/-! ## Claims about the model store -/

/-- Claim C9 (round-trip): for every artifact (a pipeline paired with its
label component), loading from a path that `saveModel` wrote the artifact to
yields an artifact whose `predict_weakness` output equals the original
artifact's for every input — in particular for any fixed example input. -/
theorem model_store_roundtrip (st : Store) (path : String)
    (pl : Pipeline) (cls : ClassesVal) :
    ∃ art2, load_model_artifacts (saveModel st path ⟨some pl, some cls⟩) path =
        some art2 ∧
      ∀ pt a s, predict_weakness art2 pt a s =
        predict_weakness ⟨some pl, some cls⟩ pt a s := by
  refine ⟨⟨some pl, some cls⟩, ?_, fun _ _ _ => rfl⟩
  unfold load_model_artifacts saveModel
  simp

/-! ## Claims about the performance lookup -/

theorem getLast?_filter_decomp {α : Type _} (p : α → Bool) :
    ∀ (l : List α) (r : α), (l.filter p).getLast? = some r →
      p r = true ∧ ∃ pre suf, l = pre ++ r :: suf ∧ ∀ x ∈ suf, p x = false := by
  intro l
  induction l with
  | nil => intro r h; simp at h
  | cons x xs ih =>
    intro r h
    cases hp : p x with
    | false =>
      rw [List.filter_cons, hp] at h
      simp only [Bool.false_eq_true, if_false] at h
      obtain ⟨hr, pre, suf, heq, hsuf⟩ := ih r h
      exact ⟨hr, x :: pre, suf, by rw [heq]; rfl, hsuf⟩
    | true =>
      rw [List.filter_cons, hp] at h
      simp only [if_true] at h
      cases hf : xs.filter p with
      | nil =>
        rw [hf] at h
        simp only [List.getLast?_singleton, Option.some.injEq] at h
        subst h
        refine ⟨hp, [], xs, rfl, ?_⟩
        intro y hy
        have := List.filter_eq_nil_iff.mp hf y hy
        exact Bool.eq_false_iff.mpr this
      | cons b bs =>
        rw [hf, List.getLast?_cons_cons, ← hf] at h
        obtain ⟨hr, pre, suf, heq, hsuf⟩ := ih r h
        exact ⟨hr, x :: pre, suf, by rw [heq]; rfl, hsuf⟩

theorem get_gp_performance_eq_getLast? (d : PerfDataset) (gp pt : String) :
    get_gp_performance d gp pt = (d.rows.filter (perfMatches gp pt)).getLast? := by
  simp only [get_gp_performance]
  cases h : d.rows.filter (perfMatches gp pt) <;> simp [h]

/-- Claim C5: the performance lookup returns the attempts and successes taken
from the last row (in dataset order) whose `gp_id` equals the partner id
exactly and whose `product_type` matches case-insensitively (this is what
`perfMatches` states), and returns `None` when no row matches; when the
matched row's attempts or successes cannot be coerced to integers the result
is treated as no data (`None`) rather than propagating a parsing error. -/
theorem get_gp_performance_spec (d : PerfDataset) (gp pt : String) :
    (get_gp_performance d gp pt = none ↔
        ∀ r ∈ d.rows, perfMatches gp pt r = false) ∧
    (∀ r, get_gp_performance d gp pt = some r →
        perfMatches gp pt r = true ∧
        ∃ pre suf, d.rows = pre ++ r :: suf ∧
          ∀ x ∈ suf, perfMatches gp pt x = false) ∧
    (∀ r, get_gp_performance d gp pt = some r →
        (r.attempts = none ∨ r.successes = none) →
        lookupPerformance d gp pt = none) ∧
    (∀ r a s, get_gp_performance d gp pt = some r → r.attempts = some a →
        r.successes = some s → lookupPerformance d gp pt = some (a, s)) := by
  refine ⟨?_, ?_, ?_, ?_⟩
  · rw [get_gp_performance_eq_getLast?]
    constructor
    · intro h r hr
      cases hf : d.rows.filter (perfMatches gp pt) with
      | nil =>
        have := List.filter_eq_nil_iff.mp hf r hr
        exact Bool.eq_false_iff.mpr this
      | cons b bs =>
        rw [hf] at h
        exact absurd (List.getLast?_eq_none_iff.mp h) (List.cons_ne_nil b bs)
    · intro h
      have hf : d.rows.filter (perfMatches gp pt) = [] :=
        List.filter_eq_nil_iff.mpr (fun a ha => by rw [h a ha]; simp)
      rw [hf]
      rfl
  · intro r h
    rw [get_gp_performance_eq_getLast?] at h
    exact getLast?_filter_decomp (perfMatches gp pt) d.rows r h
  · intro r h hnone
    rcases hnone with ha | hs
    · simp [lookupPerformance, h, ha]
    · cases hx : r.attempts with
      | none => simp [lookupPerformance, h, hx]
      | some a => simp [lookupPerformance, h, hx, hs]
  · intro r a s h ha hs
    simp [lookupPerformance, h, ha, hs]

/-- A concrete three-row dataset exercising last-match-wins and
case-insensitive product matching. -/
def samplePerfData : PerfDataset :=
  ⟨[⟨"GP001", "loan", some 5, some 1⟩,
    ⟨"GP001", "loan", some 10, some 2⟩,
    ⟨"GP002", "loan", some 7, some 3⟩]⟩

/-- Witness for C5: the lookup for `("GP001", "Loan")` returns the counts of
the second row — the last matching one — despite the differing case. -/
theorem get_gp_performance_spec_w :
    lookupPerformance samplePerfData "GP001" "Loan" = some (10, 2) :=
  (get_gp_performance_spec samplePerfData "GP001" "Loan").2.2.2
    ⟨"GP001", "loan", some 10, some 2⟩ 10 2 (by decide) rfl rfl

/-! ## Properties of the label encoding -/

theorem charListLt_nil_right (l : List Char) : charListLt l [] = false := by
  cases l <;> rfl

theorem charListLt_cons_iff {a b : Char} {as bs : List Char} :
    charListLt (a :: as) (b :: bs) = true ↔
      a.toNat < b.toNat ∨ (a.toNat = b.toNat ∧ charListLt as bs = true) := by
  simp only [charListLt]
  by_cases h1 : a.toNat < b.toNat
  · rw [if_pos h1]
    simp [h1]
  · rw [if_neg h1]
    by_cases h2 : b.toNat < a.toNat
    · rw [if_pos h2]
      constructor
      · intro hF
        exact absurd hF (by simp)
      · rintro (h | ⟨heq, _⟩)
        · omega
        · omega
    · have heq : a.toNat = b.toNat := by omega
      rw [if_neg h2]
      constructor
      · intro h
        exact Or.inr ⟨heq, h⟩
      · rintro (h | ⟨_, h⟩)
        · omega
        · exact h

theorem charListLt_trans {l1 l2 l3 : List Char}
    (h1 : charListLt l1 l2 = true) (h2 : charListLt l2 l3 = true) :
    charListLt l1 l3 = true := by
  induction l1 generalizing l2 l3 with
  | nil =>
    cases l3 with
    | nil =>
      rw [charListLt_nil_right] at h2
      exact absurd h2 (by simp)
    | cons c cs => rfl
  | cons a as ih =>
    cases l2 with
    | nil =>
      rw [charListLt_nil_right] at h1
      exact absurd h1 (by simp)
    | cons b bs =>
      cases l3 with
      | nil =>
        rw [charListLt_nil_right] at h2
        exact absurd h2 (by simp)
      | cons c cs =>
        rw [charListLt_cons_iff] at h1 h2 ⊢
        rcases h1 with h1 | ⟨h1e, h1r⟩
        · rcases h2 with h2 | ⟨h2e, _⟩
          · exact Or.inl (by omega)
          · exact Or.inl (by omega)
        · rcases h2 with h2 | ⟨h2e, h2r⟩
          · exact Or.inl (by omega)
          · exact Or.inr ⟨by omega, ih h1r h2r⟩

theorem charListLt_total {l1 l2 : List Char}
    (h1 : charListLt l1 l2 = false) (h2 : charListLt l2 l1 = false) :
    l1 = l2 := by
  induction l1 generalizing l2 with
  | nil =>
    cases l2 with
    | nil => rfl
    | cons b bs => exact absurd h1 (by simp [charListLt])
  | cons a as ih =>
    cases l2 with
    | nil => exact absurd h2 (by simp [charListLt])
    | cons b bs =>
      rw [Bool.eq_false_iff] at h1 h2
      rw [Ne, charListLt_cons_iff] at h1 h2
      push_neg at h1 h2
      have heq : a.toNat = b.toNat := by
        rcases h1 with ⟨h1a, _⟩
        rcases h2 with ⟨h2a, _⟩
        omega
      have hrec : as = bs := by
        rcases h1 with ⟨_, h1b⟩
        rcases h2 with ⟨_, h2b⟩
        exact ih (Bool.eq_false_iff.mpr (h1b heq)) (Bool.eq_false_iff.mpr (h2b heq.symm))
      have hc : a = b := Char.ext (UInt32.toNat.inj heq)
      rw [hc, hrec]

theorem strLt_trans {a b c : String}
    (h1 : strLt a b = true) (h2 : strLt b c = true) : strLt a c = true :=
  charListLt_trans h1 h2

theorem strLt_total {a b : String}
    (h1 : strLt a b = false) (h2 : strLt b a = false) : a = b := by
  apply String.ext
  exact charListLt_total h1 h2

theorem strLt_ne {a b : String} (h : strLt a b = true) : a ≠ b := by
  intro he
  subst he
  have : charListLt a.data a.data = false := by
    induction a.data with
    | nil => rfl
    | cons c cs ih =>
      unfold charListLt
      rw [if_neg (Nat.lt_irrefl _), if_neg (Nat.lt_irrefl _)]
      exact ih
  rw [strLt] at h
  rw [this] at h
  exact absurd h (by simp)

/-- The relation a strictly `strLt`-sorted list is pairwise ordered by. -/
def SLt (a b : String) : Prop :=
  strLt a b = true

theorem mem_insertSortedUniq {x y : String} {l : List String} :
    y ∈ insertSortedUniq x l ↔ y = x ∨ y ∈ l := by
  induction l with
  | nil => simp [insertSortedUniq]
  | cons a t ih =>
    unfold insertSortedUniq
    by_cases h1 : x = a
    · rw [if_pos h1]
      subst h1
      simp only [List.mem_cons]
      tauto
    · cases h2 : strLt x a with
      | true =>
        rw [if_neg h1, if_pos rfl]
        simp only [List.mem_cons]
      | false =>
        rw [if_neg h1]
        simp only [Bool.false_eq_true, if_false, List.mem_cons, ih]
        tauto

theorem pairwise_insertSortedUniq {x : String} {l : List String}
    (h : l.Pairwise SLt) : (insertSortedUniq x l).Pairwise SLt := by
  induction l with
  | nil => simp [insertSortedUniq]
  | cons a t ih =>
    rw [List.pairwise_cons] at h
    obtain ⟨ha, ht⟩ := h
    unfold insertSortedUniq
    by_cases h1 : x = a
    · subst h1
      rw [if_pos rfl, List.pairwise_cons]
      exact ⟨ha, ht⟩
    · cases h2 : strLt x a with
      | true =>
        rw [if_neg h1, if_pos rfl, List.pairwise_cons]
        constructor
        · intro b hb
          rcases List.mem_cons.mp hb with hb | hb
          · exact hb ▸ h2
          · exact strLt_trans h2 (ha b hb)
        · rw [List.pairwise_cons]
          exact ⟨ha, ht⟩
      | false =>
        rw [if_neg h1]
        simp only [Bool.false_eq_true, if_false]
        rw [List.pairwise_cons]
        refine ⟨?_, ih ht⟩
        intro b hb
        rcases mem_insertSortedUniq.mp hb with hb | hb
        · subst hb
          cases h3 : strLt a b with
          | true => exact h3
          | false => exact absurd (strLt_total h2 h3) h1
        · exact ha b hb

theorem sortedUnique_aux (l : List String) :
    ∀ acc : List String, acc.Pairwise SLt →
      (l.foldl (fun acc x => insertSortedUniq x acc) acc).Pairwise SLt ∧
      ∀ y, y ∈ l.foldl (fun acc x => insertSortedUniq x acc) acc ↔
        y ∈ acc ∨ y ∈ l := by
  induction l with
  | nil =>
    intro acc hs
    exact ⟨hs, by simp⟩
  | cons a t ih =>
    intro acc hs
    obtain ⟨hs', hmem⟩ := ih (insertSortedUniq a acc) (pairwise_insertSortedUniq hs)
    refine ⟨hs', ?_⟩
    intro y
    rw [List.foldl_cons, hmem y, mem_insertSortedUniq]
    simp only [List.mem_cons]
    tauto

theorem mem_sortedUnique {l : List String} {y : String} :
    y ∈ sortedUnique l ↔ y ∈ l := by
  have h := (sortedUnique_aux l [] List.Pairwise.nil).2 y
  unfold sortedUnique
  rw [h]
  simp

theorem sortedUnique_nodup (l : List String) : (sortedUnique l).Nodup :=
  ((sortedUnique_aux l [] List.Pairwise.nil).1).imp (fun h => strLt_ne h)

theorem filterMap_isSome_length {α β : Type _} (f : α → Option β) :
    ∀ l : List α, (∀ r ∈ l, (f r).isSome = true) →
      (l.filterMap f).length = l.length := by
  intro l
  induction l with
  | nil => intro _; rfl
  | cons a t ih =>
    intro h
    obtain ⟨v, hv⟩ := Option.isSome_iff_exists.mp (h a (List.mem_cons_self a t))
    rw [List.filterMap_cons, hv]
    simp [ih (fun r hr => h r (List.mem_cons_of_mem a hr))]

theorem observedLabels_length (rows : List TrainRow) :
    (observedLabels rows).length = (dropnaRows rows).length := by
  unfold observedLabels
  refine filterMap_isSome_length _ _ (fun r hr => ?_)
  have hc : rowComplete r = true := List.of_mem_filter hr
  simp only [rowComplete, Bool.and_eq_true] at hc
  exact hc.2

/-- The non-error run of `train_model`: when none of the four data checks
fires, it returns an artifact whose persisted label list is the encoder's
class list for the observed labels. -/
theorem train_model_run (fit : List (FeatureRow × Nat) → Pipeline)
    (df : TrainDataset) (e1 : df.rows.isEmpty = false)
    (e2 : required_cols.all (fun c => df.columns.contains c) = true)
    (e3 : ¬(dropnaRows df.rows).length < 10) :
    ∃ art, train_model fit (some df) = some art ∧
      art.target_encoder_classes = labelEncoderClasses (observedLabels df.rows) := by
  have hlen10 : 10 ≤ (dropnaRows df.rows).length := Nat.le_of_not_lt e3
  have hclean : dropnaRows df.rows ≠ [] := by
    intro h0
    rw [h0] at hlen10
    simp at hlen10
  have hX : ((dropnaRows df.rows).map (fun r =>
      FeatureRow.mk (r.product_type.getD "") (r.attempts.getD 0)
        (r.successes.getD 0))).isEmpty = false := by
    rw [Bool.eq_false_iff]
    intro hx
    exact hclean (List.map_eq_nil_iff.mp (List.isEmpty_iff.mp hx))
  have hy : (labelEncoderTransform
      (labelEncoderClasses ((dropnaRows df.rows).filterMap
        (fun r => r.last_weak_topic)))
      ((dropnaRows df.rows).filterMap (fun r => r.last_weak_topic))).isEmpty
        = false := by
    rw [Bool.eq_false_iff]
    intro hx
    have h0 : ((dropnaRows df.rows).filterMap (fun r => r.last_weak_topic)) = [] :=
      List.map_eq_nil_iff.mp (List.isEmpty_iff.mp hx)
    have := observedLabels_length df.rows
    rw [observedLabels, h0] at this
    rw [← this] at hlen10
    simp at hlen10
  simp only [train_model, e1, e2, Bool.not_true, Bool.false_eq_true, if_false,
    if_neg e3, hX, hy, Bool.or_self]
  exact ⟨_, rfl, rfl⟩

/-- Claim C6: the training entry point fails (returns no artifact; the spec's
`DataError`) exactly when the dataset cannot be read, is empty, is missing a
required column among `product_type`, `attempts`, `successes`,
`last_weak_topic`, or — after dropping rows with missing values in any
required column — has fewer than 10 rows. -/
theorem train_model_fails_iff (fit : List (FeatureRow × Nat) → Pipeline)
    (rr : Option TrainDataset) :
    train_model fit rr = none ↔
      (rr = none ∨ ∃ df, rr = some df ∧
        (df.rows = [] ∨ ¬(∀ c ∈ required_cols, c ∈ df.columns) ∨
          (dropnaRows df.rows).length < 10)) := by
  have hbridge : ∀ df : TrainDataset,
      required_cols.all (fun c => df.columns.contains c) = true ↔
        ∀ c ∈ required_cols, c ∈ df.columns := by
    intro df
    rw [List.all_eq_true]
    constructor
    · intro h c hc
      exact List.elem_iff.mp (h c hc)
    · intro h c hc
      exact List.elem_iff.mpr (h c hc)
  cases rr with
  | none => simp [train_model]
  | some df =>
    constructor
    · intro h
      refine Or.inr ⟨df, rfl, ?_⟩
      by_cases e1 : df.rows.isEmpty
      · exact Or.inl (List.isEmpty_iff.mp e1)
      · by_cases e2 : required_cols.all (fun c => df.columns.contains c) = true
        · by_cases e3 : (dropnaRows df.rows).length < 10
          · exact Or.inr (Or.inr e3)
          · obtain ⟨art, hart, _⟩ :=
              train_model_run fit df (Bool.eq_false_iff.mpr e1) e2 e3
            rw [hart] at h
            exact absurd h (by simp)
        · refine Or.inr (Or.inl ?_)
          intro hall
          exact e2 ((hbridge df).mpr hall)
    · intro h
      rcases h with h | ⟨df', hdf, hcond⟩
      · exact absurd h (by simp)
      · have hdf' : df = df' := by injection hdf
        subst hdf'
        rcases hcond with h1 | h2 | h3
        · have e1 : df.rows.isEmpty = true := List.isEmpty_iff.mpr h1
          simp only [train_model, e1, if_true]
        · have hfalse : required_cols.all (fun c => df.columns.contains c) = false := by
            rw [Bool.eq_false_iff]
            intro hall
            exact h2 ((hbridge df).mp hall)
          cases e1 : df.rows.isEmpty with
          | true => simp only [train_model, e1, if_true]
          | false =>
            simp only [train_model, e1, hfalse, Bool.not_false, if_true,
              Bool.false_eq_true, if_false]
        · cases e1 : df.rows.isEmpty with
          | true => simp only [train_model, e1, if_true]
          | false =>
            cases e2 : required_cols.all (fun c => df.columns.contains c) with
            | true =>
              simp only [train_model, e1, e2, Bool.not_true, Bool.false_eq_true,
                if_false]
              rw [if_pos h3]
            | false =>
              simp only [train_model, e1, e2, Bool.not_false, if_true,
                Bool.false_eq_true, if_false]

/-- Witness for C6: a dataset read failure yields no artifact. -/
theorem train_model_fails_iff_w :
    train_model (fun _ => fun _ => Except.ok []) none = none :=
  (train_model_fails_iff (fun _ => fun _ => Except.ok []) none).mpr (Or.inl rfl)

/-- Inversion: a produced artifact's persisted label list is the encoder's
class list over the observed labels. -/
theorem train_model_some_classes (fit : List (FeatureRow × Nat) → Pipeline)
    (df : TrainDataset) (art : SavedArtifact)
    (h : train_model fit (some df) = some art) :
    art.target_encoder_classes = sortedUnique (observedLabels df.rows) := by
  cases e1 : df.rows.isEmpty with
  | true =>
    rw [show train_model fit (some df) = none from by
      simp only [train_model, e1, if_true]] at h
    exact absurd h (by simp)
  | false =>
    cases e2 : required_cols.all (fun c => df.columns.contains c) with
    | false =>
      rw [show train_model fit (some df) = none from by
        simp only [train_model, e1, e2, Bool.not_false, if_true,
          Bool.false_eq_true, if_false]] at h
      exact absurd h (by simp)
    | true =>
      by_cases e3 : (dropnaRows df.rows).length < 10
      · rw [show train_model fit (some df) = none from by
          simp only [train_model, e1, e2, Bool.not_true, Bool.false_eq_true,
            if_false]
          rw [if_pos e3]] at h
        exact absurd h (by simp)
      · obtain ⟨art', hart', hcls⟩ := train_model_run fit df e1 e2 e3
        rw [hart'] at h
        have : art' = art := by injection h
        rw [← this, hcls]
        rfl

/-- Claim C4 as amended: for every dataset accepted by `train_model`, the
target labels are encoded as dense integer indices `0..K-1` indexing into the
lexicographically sorted list of the unique observed labels (the semantics of
`LabelEncoder`; NOT first-observation order), and exactly that sorted ordered
list is persisted alongside the pipeline in the saved artifact, so that class
index `i` corresponds to the `i`-th element of the persisted list. -/
theorem train_model_label_encoding (fit : List (FeatureRow × Nat) → Pipeline)
    (rr : Option TrainDataset) (art : SavedArtifact)
    (h : train_model fit rr = some art) :
    ∃ df, rr = some df ∧
      art.target_encoder_classes = sortedUnique (observedLabels df.rows) ∧
      (∀ code ∈ labelEncoderTransform art.target_encoder_classes
          (observedLabels df.rows), code < art.target_encoder_classes.length) ∧
      (∀ j, j < art.target_encoder_classes.length →
          j ∈ labelEncoderTransform art.target_encoder_classes
            (observedLabels df.rows)) ∧
      (∀ lbl ∈ observedLabels df.rows,
          art.target_encoder_classes[art.target_encoder_classes.indexOf lbl]? =
            some lbl) := by
  cases rr with
  | none => exact absurd h (by simp [train_model])
  | some df =>
    have hcls := train_model_some_classes fit df art h
    refine ⟨df, rfl, hcls, ?_, ?_, ?_⟩
    · intro code hcode
      rw [hcls] at hcode ⊢
      obtain ⟨lbl, hlbl, hrfl⟩ := List.mem_map.mp hcode
      rw [← hrfl]
      exact List.indexOf_lt_length.mpr (mem_sortedUnique.mpr hlbl)
    · intro j hj
      rw [hcls] at hj ⊢
      have hobs : (sortedUnique (observedLabels df.rows))[j] ∈
          observedLabels df.rows :=
        mem_sortedUnique.mp (List.getElem_mem hj)
      refine List.mem_map.mpr ⟨(sortedUnique (observedLabels df.rows))[j], hobs, ?_⟩
      exact List.indexOf_getElem (sortedUnique_nodup _) j hj
    · intro lbl hlbl
      rw [hcls]
      exact List.getElem?_indexOf (mem_sortedUnique.mpr hlbl)

/-- A trivial fit step used for the concrete training runs below. -/
def constFit : List (FeatureRow × Nat) → Pipeline :=
  fun _ => fun _ => Except.ok []

/-- A complete training row with the given target label. -/
def mkTrainRow (lbl : String) : TrainRow :=
  ⟨some "loan", some 3, some 1, some lbl⟩

/-- A ten-row dataset whose labels are observed in the order
`"b_topic"` before `"a_topic"`. -/
def cexTrainData : TrainDataset :=
  ⟨["gp_id", "product_type", "attempts", "successes", "last_weak_topic"],
   [mkTrainRow "b_topic", mkTrainRow "a_topic", mkTrainRow "a_topic",
    mkTrainRow "b_topic", mkTrainRow "a_topic", mkTrainRow "b_topic",
    mkTrainRow "a_topic", mkTrainRow "b_topic", mkTrainRow "a_topic",
    mkTrainRow "b_topic"]⟩

/-- Counterexample to claim C4 as stated: on this dataset the label
`"b_topic"` is observed first, so first-observation order would persist
`["b_topic", "a_topic"]`; the artifact actually persists the sorted list
`["a_topic", "b_topic"]`. -/
theorem train_model_label_encoding_cex :
    (train_model constFit (some cexTrainData)).map
        (fun art => art.target_encoder_classes) = some ["a_topic", "b_topic"] ∧
    firstObserved (observedLabels cexTrainData.rows) = ["b_topic", "a_topic"] ∧
    (["a_topic", "b_topic"] : List String) ≠ ["b_topic", "a_topic"] := by
  refine ⟨by decide, by decide, by decide⟩

/-- Witness for C4's amended theorem: the run on the concrete dataset
persists the sorted unique label list. -/
theorem train_model_label_encoding_w :
    ∃ df, (some cexTrainData : Option TrainDataset) = some df ∧
      (⟨constFit [], ["a_topic", "b_topic"]⟩ :
          SavedArtifact).target_encoder_classes =
        sortedUnique (observedLabels df.rows) ∧
      (∀ code ∈ labelEncoderTransform
          (⟨constFit [], ["a_topic", "b_topic"]⟩ :
            SavedArtifact).target_encoder_classes
          (observedLabels df.rows),
          code < (⟨constFit [], ["a_topic", "b_topic"]⟩ :
            SavedArtifact).target_encoder_classes.length) ∧
      (∀ j, j < (⟨constFit [], ["a_topic", "b_topic"]⟩ :
            SavedArtifact).target_encoder_classes.length →
          j ∈ labelEncoderTransform
            (⟨constFit [], ["a_topic", "b_topic"]⟩ :
              SavedArtifact).target_encoder_classes
            (observedLabels df.rows)) ∧
      (∀ lbl ∈ observedLabels df.rows,
          (⟨constFit [], ["a_topic", "b_topic"]⟩ :
              SavedArtifact).target_encoder_classes[
            (⟨constFit [], ["a_topic", "b_topic"]⟩ :
              SavedArtifact).target_encoder_classes.indexOf lbl]? = some lbl) :=
  train_model_label_encoding constFit (some cexTrainData)
    ⟨constFit [], ["a_topic", "b_topic"]⟩ rfl

end GroMo
